import Mathlib

/- Shallow embedding of the deployment-orchestration library
   `libs/prov/prov_k8s_cortx_deploy.py` (class ProvDeployK8sCortxLib).
   Python dictionaries are modelled as insertion-ordered association lists,
   Python lists as Lean lists, remote command execution as an explicit
   function parameter, and the YAML solution manifest as a structure whose
   fields are the keys the code reads and writes. -/

namespace CortxDeploy

/-- Python dict lookup `d[k]`: the binding of the key, if present. -/
def dlookup (k : String) : List (String × String) → Option String
  | [] => none
  | (k', v) :: rest => if k' = k then some v else dlookup k rest

/-- Python assignment `d[k] = v`: overwrite the value in place if the key
exists, otherwise append the new binding at the end. -/
def dinsert (k v : String) : List (String × String) → List (String × String)
  | [] => [(k, v)]
  | (k', v') :: rest => if k' = k then (k, v) :: rest else (k', v') :: dinsert k v rest

/-- Python `a.update(b)`: assign every binding of `b` into `a`, in order. -/
def dupdate (a b : List (String × String)) : List (String × String) :=
  b.foldl (fun acc kv => dinsert kv.1 kv.2 acc) a

/-- Python `d.pop(k)`: remove the binding of `k` (keys are unique in a dict). -/
def dpop (k : String) : List (String × String) → List (String × String)
  | [] => []
  | (k', v') :: rest => if k' = k then rest else (k', v') :: dpop k rest

/-- The keys of a dict, in insertion order. -/
def dkeys (l : List (String × String)) : List String :=
  l.map Prod.fst

@[simp]
theorem dkeys_nil : dkeys [] = [] := rfl

@[simp]
theorem dkeys_cons (k v : String) (rest : List (String × String)) :
    dkeys ((k, v) :: rest) = k :: dkeys rest := rfl

theorem mem_dkeys_of_mem {k v : String} {l : List (String × String)}
    (h : (k, v) ∈ l) : k ∈ dkeys l :=
  List.mem_map_of_mem Prod.fst h

theorem dlookup_dinsert (k k' v : String) (l : List (String × String)) :
    dlookup k' (dinsert k v l) = if k = k' then some v else dlookup k' l := by
  induction l with
  | nil => simp [dinsert, dlookup]
  | cons kv rest ih =>
    obtain ⟨k₀, v₀⟩ := kv
    by_cases hk₀ : k₀ = k
    · subst hk₀
      by_cases h : k₀ = k' <;> simp [dinsert, dlookup, h]
    · by_cases h : k₀ = k'
      · subst h
        have hkk' : ¬k = k₀ := fun hf => hk₀ hf.symm
        simp [dinsert, dlookup, hk₀, hkk']
      · simp [dinsert, dlookup, hk₀, h, ih]

theorem dlookup_eq_none_iff (k : String) (l : List (String × String)) :
    dlookup k l = none ↔ k ∉ dkeys l := by
  induction l with
  | nil => simp [dlookup]
  | cons kv rest ih =>
    obtain ⟨k₀, v₀⟩ := kv
    by_cases h : k₀ = k
    · subst h
      simp [dlookup]
    · have h' : ¬k = k₀ := fun hf => h hf.symm
      simp [dlookup, h, h', ih]

theorem dlookup_mem (k v : String) (l : List (String × String))
    (hn : (dkeys l).Nodup) (hm : (k, v) ∈ l) : dlookup k l = some v := by
  induction l with
  | nil => cases hm
  | cons kv rest ih =>
    obtain ⟨k₀, v₀⟩ := kv
    rw [dkeys_cons, List.nodup_cons] at hn
    rcases List.mem_cons.mp hm with h | hm'
    · have hk : k = k₀ := congrArg Prod.fst h
      have hv : v = v₀ := congrArg Prod.snd h
      subst hk
      subst hv
      simp [dlookup]
    · have hk : ¬k₀ = k := by
        intro hf
        subst hf
        exact hn.1 (mem_dkeys_of_mem hm')
      simp only [dlookup, if_neg hk]
      exact ih hn.2 hm'

theorem dupdate_nil (a : List (String × String)) : dupdate a [] = a := rfl

theorem dupdate_cons (a : List (String × String)) (k v : String)
    (b : List (String × String)) :
    dupdate a ((k, v) :: b) = dupdate (dinsert k v a) b := rfl

theorem dlookup_dupdate_not_mem (k : String) (a b : List (String × String))
    (h : k ∉ dkeys b) : dlookup k (dupdate a b) = dlookup k a := by
  induction b generalizing a with
  | nil => rfl
  | cons kv rest ih =>
    obtain ⟨k₀, v₀⟩ := kv
    rw [dkeys_cons, List.mem_cons] at h
    push_neg at h
    rw [dupdate_cons, ih _ h.2, dlookup_dinsert, if_neg (fun hf => h.1 hf.symm)]

theorem dlookup_dupdate_mem (k v : String) (a b : List (String × String))
    (hn : (dkeys b).Nodup) (hm : dlookup k b = some v) :
    dlookup k (dupdate a b) = some v := by
  induction b generalizing a with
  | nil => cases hm
  | cons kv rest ih =>
    obtain ⟨k₀, v₀⟩ := kv
    rw [dkeys_cons, List.nodup_cons] at hn
    by_cases h : k₀ = k
    · subst h
      simp only [dlookup, if_pos rfl] at hm
      rw [dupdate_cons, dlookup_dupdate_not_mem _ _ _ hn.1, dlookup_dinsert,
        if_pos rfl]
      exact hm
    · simp only [dlookup, if_neg h] at hm
      rw [dupdate_cons]
      exact ih _ hn.2 hm

theorem dlookup_dpop_ne (k k' : String) (l : List (String × String))
    (h : ¬k = k') : dlookup k (dpop k' l) = dlookup k l := by
  induction l with
  | nil => rfl
  | cons kv rest ih =>
    obtain ⟨k₀, v₀⟩ := kv
    by_cases h₀ : k₀ = k'
    · subst h₀
      have hne : ¬k₀ = k := fun hf => h hf.symm
      simp [dpop, dlookup, hne]
    · by_cases hk : k₀ = k <;> simp [dpop, dlookup, h₀, hk, h, ih]

theorem dlookup_dpop_self (k : String) (l : List (String × String))
    (hn : (dkeys l).Nodup) : dlookup k (dpop k l) = none := by
  induction l with
  | nil => rfl
  | cons kv rest ih =>
    obtain ⟨k₀, v₀⟩ := kv
    rw [dkeys_cons, List.nodup_cons] at hn
    by_cases h₀ : k₀ = k
    · subst h₀
      simp only [dpop, if_pos rfl]
      exact (dlookup_eq_none_iff _ _).mpr hn.1
    · simp only [dpop, dlookup, if_neg h₀]
      exact ih hn.2

theorem dkeys_dpop_sublist (k : String) (l : List (String × String)) :
    (dkeys (dpop k l)).Sublist (dkeys l) := by
  induction l with
  | nil => simp [dpop]
  | cons kv rest ih =>
    obtain ⟨k₀, v₀⟩ := kv
    by_cases h₀ : k₀ = k
    · simp only [dpop, if_pos h₀, dkeys_cons]
      exact List.sublist_cons_self _ _
    · simp only [dpop, if_neg h₀, dkeys_cons]
      exact ih.cons₂ k₀

theorem dkeys_dpop_nodup (k : String) (l : List (String × String))
    (hn : (dkeys l).Nodup) : (dkeys (dpop k l)).Nodup :=
  (dkeys_dpop_sublist k l).nodup hn

deriving instance DecidableEq for Except

/-- Python list slice `f[a:b]` (for the non-negative indices the code uses). -/
def pySlice (f : List String) (a b : Nat) : List String :=
  (f.drop a).take (b - a)

/-- The evenly-divisible branch of the data-device split in `update_sol_yaml`:
`[data_devices_f[i:i + data_disk_per_cvg]
  for i in range(0, len(data_devices_f), data_disk_per_cvg)]`. -/
def pyChunks (d : Nat) (f : List String) : List (List String) :=
  (List.range' 0 ((f.length + d - 1) / d) d).map (fun i => pySlice f i (i + d))

theorem pyChunks_nil (d : Nat) : pyChunks d [] = [] := by
  match d with
  | 0 => rfl
  | d + 1 =>
    show (List.range' 0 ((0 + (d + 1) - 1) / (d + 1)) (d + 1)).map _ = []
    rw [Nat.zero_add, Nat.add_sub_cancel, Nat.div_eq_of_lt (Nat.lt_succ_self d)]
    rfl

theorem range'_map_pySlice (d : Nat) :
    ∀ (q s : Nat) (f : List String),
      (List.range' s q d).map (fun i => pySlice f i (i + d)) =
        (List.range' 0 q d).map (fun i => pySlice (f.drop s) i (i + d)) := by
  intro q
  induction q with
  | zero => intro s f; rfl
  | succ q ih =>
    intro s f
    rw [List.range'_succ, List.range'_succ, List.map_cons, List.map_cons]
    have hhead : pySlice f s (s + d) = pySlice (f.drop s) 0 (0 + d) := by
      simp [pySlice]
    rw [hhead, ih (s + d) f]
    congr 1
    rw [show 0 + d = d from Nat.zero_add d, ih d (f.drop s), List.drop_drop]

theorem pyChunks_cons (d : Nat) (hd : 1 ≤ d) (f : List String) (hf : f ≠ []) :
    pyChunks d f = f.take d :: pyChunks d (f.drop d) := by
  have hlen : 1 ≤ f.length := List.length_pos.mpr hf
  have hq : (f.length + d - 1) / d = (f.length - 1) / d + 1 := by
    have h1 : f.length + d - 1 = (f.length - 1) + d := by omega
    rw [h1, Nat.add_div_right _ hd]
  show (List.range' 0 ((f.length + d - 1) / d) d).map _ = _
  rw [hq, List.range'_succ, List.map_cons]
  have hhead : pySlice f 0 (0 + d) = f.take d := by
    simp [pySlice]
  rw [hhead, range'_map_pySlice]
  simp only [Nat.zero_add]
  have htail : (f.length - 1) / d = ((f.drop d).length + d - 1) / d := by
    rw [List.length_drop]
    rcases Nat.lt_or_ge f.length d with hlt | hge
    · have h0 : f.length - d = 0 := by omega
      rw [h0]
      have h1 : (f.length - 1) / d = 0 := Nat.div_eq_of_lt (by omega)
      have h2 : (0 + d - 1) / d = 0 := Nat.div_eq_of_lt (by omega)
      rw [h1, h2]
    · congr 1
      omega
  rw [htail]
  rfl

theorem pyChunks_spec (d : Nat) (hd : 1 ≤ d) :
    ∀ (g : Nat) (f : List String), f.length = g * d →
      (pyChunks d f).length = g ∧ (∀ l ∈ pyChunks d f, l.length = d) ∧
        (pyChunks d f).flatten = f := by
  intro g
  induction g with
  | zero =>
    intro f hf
    have : f = [] := List.length_eq_zero.mp (by simpa using hf)
    subst this
    simp [pyChunks_nil]
  | succ g ih =>
    intro f hf
    have hmul : (g + 1) * d = g * d + d := by ring
    rw [hmul] at hf
    have hfd : d ≤ f.length := by omega
    have hne : f ≠ [] := by
      intro h
      rw [h, List.length_nil] at hf
      omega
    have hdroplen : (f.drop d).length = g * d := by
      rw [List.length_drop]
      omega
    obtain ⟨ihl, ihm, ihj⟩ := ih (f.drop d) hdroplen
    rw [pyChunks_cons d hd f hne]
    refine ⟨by simp [ihl], ?_, ?_⟩
    · intro l hl
      rcases List.mem_cons.mp hl with h | h
      · subst h
        rw [List.length_take]
        omega
      · exact ihm l h
    · rw [List.flatten_cons, ihj, List.take_append_drop]

/-- The `while count:` loop of `update_sol_yaml` (lines 417-424) that appends
successive data-device slices in the unevenly-divisible branch.  The first
argument of the recursion is the remaining `count`, the second the running
`count_end`. -/
def whileSlices (f : List String) (rem : Int) (d : Nat) :
    Nat → Nat → List (List String) → List (List String)
  | 0, _, acc => acc
  | count + 1, count_end, acc =>
    let new_end := count_end + d
    if (new_end : Int) > rem then acc
    else whileSlices f rem d count new_end (acc ++ [pySlice f count_end new_end])

/-- The `PROV_CFG["k8s_cortx_deploy"]` entries read by the embedded functions.
The `password` dict stands for the passwords after `pswdmanager.decrypt`. -/
structure DeployCfg where
  third_party_images : List (String × String)
  cortx_images_key : List String
  password : List (String × String)
  local_path_prov : String
  s3_max_start_timeout : String
  prereq_cpu_cores : Nat
  prereq_min_disks : Nat
  prereq_os_release : List String
  prereq_kernel : List String
  git_remote_dir : String
  destroy_cluster : String
deriving DecidableEq

/-- A worker node as the embedded functions observe it: its hostname and the
already-parsed outputs of the CPU-count, disk-count, OS-release,
kernel-version and device-enumeration commands. -/
structure NodeAttrs where
  hostname : String
  cpu : Nat
  disks : Nat
  os : String
  kernel : String
  devices : List String
deriving DecidableEq

/-- `prereq_vm` (lines 138-180): the four prerequisite checks, in source
order, each returning `(False, message)` on the first mismatch. -/
def prereq_vm (cfg : DeployCfg) (node : NodeAttrs) : Bool × String :=
  if node.cpu < cfg.prereq_cpu_cores then
    (false, "No of CPU are not as expected.")
  else if node.disks < cfg.prereq_min_disks then
    (false, "Need at least " ++ toString cfg.prereq_min_disks ++
      " disks for deployment")
  else if node.os ∉ cfg.prereq_os_release then
    (false, "OS version is different than expected.")
  else if node.kernel ∉ cfg.prereq_kernel then
    (false, "Kernel Version is different than expected.")
  else (true, "Prerequisite VM check successful")

/-- One service entry of the parsed `hctl status` JSON. -/
structure Svc where
  name : String
  status : String
deriving DecidableEq

/-- One node entry of the parsed `hctl status` JSON. -/
structure HctlNode where
  svcs : List Svc
deriving DecidableEq

/-- The parsed `hctl status` JSON document. -/
structure HctlStatus where
  nodes : List HctlNode
deriving DecidableEq

/-- The nested `for node_data in nodes_data / for svc in services` scan of
`get_hctl_status`: the first service whose status is not "started". -/
def firstStopped : List HctlNode → Option Svc
  | [] => none
  | nd :: rest =>
    match nd.svcs.find? (fun svc => !(svc.status == "started")) with
    | some svc => some svc
    | none => firstStopped rest

/-- `get_hctl_status` (lines 689-709): `none` stands for a JSON document that
parses to null. -/
def get_hctl_status (cluster_status : Option HctlStatus) : Bool × String :=
  match cluster_status with
  | some cs =>
    match firstStopped cs.nodes with
    | some svc => (false, "Service " ++ svc.name ++ " not started.")
    | none => (true, "Cluster is up and running.")
  | none => (false, "Cluster status is not retrieved.")

/-- The convergence-polling loop of `test_deployment` (lines 1080-1089): poll
`get_hctl_status` while the current time is below the deadline, break on the
first success, sleep 60 seconds after a failed poll.  `respAt t` is the
response observed at time `t`; the result pairs the final value of `resp`
with the list of times at which a poll happened. -/
def pollLoop (respAt : Nat → Bool × String) (end_time : Nat) (t : Nat)
    (last : Bool × String) : (Bool × String) × List Nat :=
  if h : t < end_time then
    let resp := respAt t
    if resp.1 then (resp, [t])
    else
      let next := pollLoop respAt end_time (t + 60) resp
      (next.1, t :: next.2)
  else (last, [])
termination_by end_time - t
decreasing_by omega

/-- The convergence poll with its 30-minute deadline:
`end_time = start_time + 1800`. -/
def convergence_poll (respAt : Nat → Bool × String) (start_time : Nat)
    (last : Bool × String) : (Bool × String) × List Nat :=
  pollLoop respAt (start_time + 1800) start_time last

/-- The master teardown command of `destroy_setup` (`cmd1`). -/
def destroy_cmd1 (cfg : DeployCfg) : String :=
  "cd " ++ cfg.git_remote_dir ++ " && " ++ cfg.destroy_cluster ++ " --force"

/-- The worker unmount command of `destroy_setup` (`cmd2`). -/
def destroy_cmd2 (cfg : DeployCfg) : String :=
  "umount " ++ cfg.local_path_prov

/-- The worker residual-directory removal command of `destroy_setup`
(`cmd3`). -/
def destroy_cmd3 : String :=
  "rm -rf /etc/3rd-party/openldap /var/data/3rd-party/"

/-- The `for worker in worker_node_obj` loop of `destroy_setup`, under the
surrounding `try`: `exec host cmd` is remote execution, with `.error`
standing for `execute_cmd` raising.  The result carries the value the
function returns together with the list of commands actually issued, in
order. -/
def workerCleanupLoop (exec : String → String → Except String String)
    (cmd2 cmd3 : String) :
    List String → String → Except String String × List (String × String)
  | [], resp => (.ok resp, [])
  | worker :: rest, _ =>
    match exec worker cmd2 with
    | .error e => (.error e, [(worker, cmd2)])
    | .ok _ =>
      match exec worker cmd3 with
      | .error e => (.error e, [(worker, cmd2), (worker, cmd3)])
      | .ok r3 =>
        let next := workerCleanupLoop exec cmd2 cmd3 rest r3
        (next.1, (worker, cmd2) :: (worker, cmd3) :: next.2)

/-- `destroy_setup` (lines 711-735): master teardown, then per-worker
cleanup, all inside a single `try` whose `except` clause returns
`(False, error)`.  `.ok resp` models the `(True, resp)` return. -/
def destroy_setup (exec : String → String → Except String String)
    (cfg : DeployCfg) (master : String) (workers : List String) :
    Except String String × List (String × String) :=
  match exec master (destroy_cmd1 cfg) with
  | .error e => (.error e, [(master, destroy_cmd1 cfg)])
  | .ok r1 =>
    let next := workerCleanupLoop exec (destroy_cmd2 cfg) destroy_cmd3 workers r1
    (next.1, (master, destroy_cmd1 cfg) :: next.2)

/-- The named phases `test_deployment` can run, in source order. -/
inductive DeployStep where
  | setupK8sCluster
  | taintMaster
  | cortxClusterDeploy
  | convergencePoll
  | clientConfig
  | basicIo
  | s3benchWorkload
  | destroySetup
deriving DecidableEq

/-- The six phase toggles of `test_deployment`. -/
structure DeployFlags where
  setup_k8s_cluster_flag : Bool
  cortx_cluster_deploy_flag : Bool
  setup_client_config_flag : Bool
  run_basic_s3_io_flag : Bool
  run_s3bench_workload_flag : Bool
  destroy_setup_flag : Bool
deriving DecidableEq

/-- The phase skeleton of `test_deployment` (lines 1044-1117): which steps
run under which flags, in order.  The basic-IO and s3bench steps are nested
inside the `setup_client_config_flag` branch. -/
def test_deployment_steps (flags : DeployFlags) : List DeployStep :=
  (if flags.setup_k8s_cluster_flag then
    [DeployStep.setupK8sCluster, DeployStep.taintMaster] else []) ++
  (if flags.cortx_cluster_deploy_flag then
    [DeployStep.cortxClusterDeploy, DeployStep.convergencePoll] else []) ++
  (if flags.setup_client_config_flag then
    [DeployStep.clientConfig] ++
    (if flags.run_basic_s3_io_flag then [DeployStep.basicIo] else []) ++
    (if flags.run_s3bench_workload_flag then [DeployStep.s3benchWorkload] else [])
  else []) ++
  (if flags.destroy_setup_flag then [DeployStep.destroySetup] else [])

/-- One `{device, size}` entry in the storage section of the manifest. -/
structure DiskSchema where
  device : String
  size : String
deriving DecidableEq

/-- The `devices` value of one cvg: a metadata entry and the `d1..dn` data
entries, in insertion order. -/
structure CvgDevices where
  metadata : DiskSchema
  data : List (String × DiskSchema)
deriving DecidableEq

/-- One cvg entry of the storage section (`name`, `type`, `devices`). -/
structure CvgDict where
  name : String
  cvg_type : String
  devices : CvgDevices
deriving DecidableEq

/-- The fields of `solution.yaml` that the `update_*_sol_file` passes read
and write, keyed as the code addresses them under the top-level `solution`
mapping. -/
structure Manifest where
  secrets_content : List (String × String)
  storage_provisioner_path : String
  s3_max_start_timeout : String
  glusterfs_size : String
  durability_sns : String
  durability_dix : String
  storage : List (String × CvgDict)
  images : List (String × String)
  nodes : List (String × String)
deriving DecidableEq

/-- `update_password_sol_file` (lines 618-642): set the provisioner path and
the s3 start timeout, and merge the decrypted passwords into
`secrets.content`.  The source always returns `(True, filepath)`. -/
def update_password_sol_file (cfg : DeployCfg) (conf : Manifest) : Manifest :=
  { conf with
    storage_provisioner_path := cfg.local_path_prov
    s3_max_start_timeout := cfg.s3_max_start_timeout
    secrets_content := dupdate conf.secrets_content cfg.password }

/-- The `for key, value in list(third_party_images_dict.items())` loop of
`update_image_section_sol_file`, threading the images dict and the shrinking
copy of the default third-party dict. -/
def imageLoop (default_keys : List String) :
    List (String × String) → List (String × String) × List (String × String) →
    List (String × String) × List (String × String)
  | [], st => st
  | (key, value) :: rest, (image, image_default) =>
    if key ∈ default_keys then
      imageLoop default_keys rest (dinsert key value image, dpop key image_default)
    else
      imageLoop default_keys rest (image, image_default)

/-- `update_image_section_sol_file` (lines 583-616): write the cortx image
under every cortx image key, copy the injected third-party images whose keys
are known default keys (removing them from the default copy), then merge the
remaining defaults.  The source always returns `(True, filepath)`. -/
def update_image_section_sol_file (cfg : DeployCfg) (conf : Manifest)
    (cortx_image : String) (third_party_images_dict : List (String × String)) :
    Manifest :=
  let cortx_im := cfg.cortx_images_key.foldl (fun a key => dinsert key cortx_image a) []
  let image_default_dict := dupdate [] cfg.third_party_images
  let image := dupdate conf.images cortx_im
  let st := imageLoop (dkeys cfg.third_party_images) third_party_images_dict
    (image, image_default_dict)
  { conf with images := dupdate st.1 st.2 }

/-- Python list indexing `l[i]`, raising `IndexError` when out of range. -/
def pyGet (l : List α) (i : Nat) : Except String α :=
  match l.get? i with
  | some x => Except.ok x
  | none => Except.error "IndexError"

/-- The inner `for disk in range(0, data_disk_per_cvg)` loop of
`update_cvg_sol_file`: the `d1..dn` data schema of one cvg. -/
def buildDataSchema (devs : List String) (size_data_disk : String)
    (data_disk_per_cvg : Nat) : Except String (List (String × DiskSchema)) :=
  (List.range data_disk_per_cvg).mapM (fun disk =>
    (pyGet devs disk).map (fun dev =>
      ("d" ++ toString (disk + 1), DiskSchema.mk dev size_data_disk)))

/-- The body of the `for cvg in range(0, cvg_count)` loop of
`update_cvg_sol_file`: one `cvgN` storage entry. -/
def buildCvg (metadata_devices : List String)
    (data_devices : List (List String)) (size_metadata size_data_disk
    cvg_type : String) (data_disk_per_cvg : Nat) (cvg : Nat) :
    Except String (String × CvgDict) := do
  let mdev ← pyGet metadata_devices cvg
  let ddevs ← pyGet data_devices cvg
  let data_schema ← buildDataSchema ddevs size_data_disk data_disk_per_cvg
  Except.ok ("cvg" ++ toString (cvg + 1),
    { name := "cvg-0" ++ toString (cvg + 1)
      cvg_type := cvg_type
      devices := { metadata := DiskSchema.mk mdev size_metadata
                   data := data_schema } })

/-- `update_cvg_sol_file` (lines 505-581): format the two `N+K+S` durability
strings, set the glusterfs size, and rebuild the storage section from the
given metadata/data device lists.  A Python `IndexError` (device lists
shorter than `cvg_count`/`data_disk_per_cvg`) is modelled as `.error`; it
prevents the write-back, so the on-disk manifest is unchanged. -/
def update_cvg_sol_file (conf : Manifest) (metadata_devices : List String)
    (data_devices : List (List String)) (cvg_count : Nat) (cvg_type : String)
    (data_disk_per_cvg : Nat)
    (sns_data sns_parity sns_spare dix_data dix_parity dix_spare : Int)
    (size_metadata size_data_disk glusterfs_size : String) :
    Except String Manifest := do
  let nks := toString sns_data ++ "+" ++ toString sns_parity ++ "+" ++
    toString sns_spare
  let dix := toString dix_data ++ "+" ++ toString dix_parity ++ "+" ++
    toString dix_spare
  let storage ← (List.range cvg_count).mapM
    (buildCvg metadata_devices data_devices size_metadata size_data_disk
      cvg_type data_disk_per_cvg)
  Except.ok { conf with
    glusterfs_size := glusterfs_size
    durability_sns := nks
    durability_dix := dix
    storage := storage }

/-- `update_nodes_sol_file` (lines 472-503): replace the nodes section with
`node1..nodeN` entries naming the worker hostnames, in order.  The source
always returns `(True, filepath)`. -/
def update_nodes_sol_file (conf : Manifest) (worker_hostnames : List String) :
    Manifest :=
  { conf with
    nodes := ((List.range worker_hostnames.length).zip worker_hostnames).map
      (fun iw => ("node" ++ toString (iw.1 + 1), iw.2)) }

/-- The state threaded through the device-enumeration loop of
`update_sol_yaml`: the (possibly re-derived) `data_disk_per_cvg`, the last
`metadata_devices`, the running `data_devices`, and the host-to-system-disk
dict. -/
structure SolState where
  data_disk_per_cvg : Nat
  metadata_devices : List String
  data_devices : List (List String)
  sys_disk_pernode : List (String × String)
deriving DecidableEq

/-- The `if data_disk_per_cvg == 0` derivation of `update_sol_yaml` (lines
398-399): `int(len(device_list[cvg_count + 1:]) / cvg_count)`. -/
def deriveDataDisk (data_disk_per_cvg cvg_count : Nat)
    (device_list : List String) : Nat :=
  if data_disk_per_cvg = 0 then
    (device_list.drop (cvg_count + 1)).length / cvg_count
  else data_disk_per_cvg

theorem deriveDataDisk_pos (d g : Nat) (devs : List String) (hd : 1 ≤ d) :
    deriveDataDisk d g devs = d :=
  if_neg (by omega)

/-- One iteration of the `for node_count, node_obj in enumerate(worker_obj)`
loop of `update_sol_yaml` (lines 385-434): slice the node's enumerated
device list, derive `data_disk_per_cvg` when it is zero, run the two
validation checks, and extend the running state.  The two `return False`
branches are the `.error` cases. -/
def processNode (cvg_count : Nat) (valid_disk_count : Int)
    (skip_disk_count_check : Bool) (node_list : Nat) (st : SolState)
    (node : NodeAttrs) : Except String SolState :=
  let device_list := node.devices
  let metadata_devices := pySlice device_list 1 (cvg_count + 1)
  let device_list_len := device_list.length
  let new_device_lst_len : Int := (device_list_len : Int) - cvg_count - 1
  let count := cvg_count
  let data_disk_per_cvg := deriveDataDisk st.data_disk_per_cvg cvg_count
    device_list
  if skip_disk_count_check = false ∧
      valid_disk_count > (data_disk_per_cvg * cvg_count * node_list : Int) then
    Except.error "The sum of data disks per cvg is less than N+K+S count"
  else if new_device_lst_len < (data_disk_per_cvg * cvg_count : Int) then
    Except.error
      "The requested data disk is more than the data disk available on the system"
  else
    let data_devices_f := device_list.drop (cvg_count + 1)
    let data_devices :=
      if (data_disk_per_cvg * cvg_count : Int) < new_device_lst_len then
        whileSlices data_devices_f new_device_lst_len data_disk_per_cvg count
          data_disk_per_cvg
          (st.data_devices ++ [pySlice data_devices_f 0 data_disk_per_cvg])
      else
        pyChunks data_disk_per_cvg data_devices_f
    let system_disk := device_list.headD ""
    Except.ok { data_disk_per_cvg := data_disk_per_cvg
                metadata_devices := metadata_devices
                data_devices := data_devices
                sys_disk_pernode :=
                  dinsert node.hostname system_disk st.sys_disk_pernode }

/-- The whole device-enumeration loop of `update_sol_yaml`, threading the
state over the worker list and stopping at the first validation failure. -/
def solYamlLoop (cvg_count : Nat) (valid_disk_count : Int)
    (skip_disk_count_check : Bool) (node_list : Nat) :
    List NodeAttrs → SolState → Except String SolState
  | [], st => Except.ok st
  | node :: rest, st =>
    match processNode cvg_count valid_disk_count skip_disk_count_check
        node_list st node with
    | Except.error e => Except.error e
    | Except.ok st' =>
      solYamlLoop cvg_count valid_disk_count skip_disk_count_check node_list
        rest st'

/-- The keyword arguments of `update_sol_yaml`, with their source defaults. -/
structure SolYamlArgs where
  cvg_count : Nat := 2
  data_disk_per_cvg : Nat := 0
  cvg_type : String := "ios"
  sns_data : Int := 1
  sns_parity : Int := 0
  sns_spare : Int := 0
  dix_data : Int := 1
  dix_parity : Int := 0
  dix_spare : Int := 0
  size_metadata : String := "20Gi"
  size_data_disk : String := "20Gi"
  glusterfs_size : String := "20Gi"
  skip_disk_count_check : Bool := false
  third_party_images : List (String × String)
deriving DecidableEq

/-- `update_sol_yaml` (lines 342-470): run the device-enumeration loop over
the workers, then the password, image, cvg and nodes edit passes, in that
order.  The success value pairs the final manifest with the
host-to-system-disk dict (the source's `(True, filepath, sys_disk_pernode)`
return). -/
def update_sol_yaml (cfg : DeployCfg) (worker_obj : List NodeAttrs)
    (conf : Manifest) (cortx_image : String) (args : SolYamlArgs) :
    Except String (Manifest × List (String × String)) :=
  let node_list := worker_obj.length
  let valid_disk_count := args.sns_spare + args.sns_data + args.sns_parity
  let st0 : SolState :=
    { data_disk_per_cvg := args.data_disk_per_cvg
      metadata_devices := []
      data_devices := []
      sys_disk_pernode := [] }
  match solYamlLoop args.cvg_count valid_disk_count args.skip_disk_count_check
      node_list worker_obj st0 with
  | Except.error e => Except.error e
  | Except.ok st =>
    let conf1 := update_password_sol_file cfg conf
    let conf2 := update_image_section_sol_file cfg conf1 cortx_image
      args.third_party_images
    match update_cvg_sol_file conf2 st.metadata_devices st.data_devices
        args.cvg_count args.cvg_type st.data_disk_per_cvg args.sns_data
        args.sns_parity args.sns_spare args.dix_data args.dix_parity
        args.dix_spare args.size_metadata args.size_data_disk
        args.glusterfs_size with
    | Except.error _ =>
      Except.error "Fail to update the cvg details in solution file"
    | Except.ok conf3 =>
      Except.ok (update_nodes_sol_file conf3 (worker_obj.map NodeAttrs.hostname),
        st.sys_disk_pernode)

/-- C8: `prereq_vm(node)` returns success iff the node's CPU count is at
least the configured threshold, its disk count at least the configured
minimum, its OS release in the allow-list and its kernel version in the
allow-list; any single mismatch yields a failure whose message identifies
the first failed check. -/
theorem prereq_vm_spec (cfg : DeployCfg) (node : NodeAttrs) :
    ((prereq_vm cfg node).1 = true ↔
      (cfg.prereq_cpu_cores ≤ node.cpu ∧ cfg.prereq_min_disks ≤ node.disks ∧
        node.os ∈ cfg.prereq_os_release ∧ node.kernel ∈ cfg.prereq_kernel)) ∧
    ((prereq_vm cfg node).1 = true →
      (prereq_vm cfg node).2 = "Prerequisite VM check successful") ∧
    (node.cpu < cfg.prereq_cpu_cores →
      prereq_vm cfg node = (false, "No of CPU are not as expected.")) ∧
    (cfg.prereq_cpu_cores ≤ node.cpu → node.disks < cfg.prereq_min_disks →
      prereq_vm cfg node = (false, "Need at least " ++
        toString cfg.prereq_min_disks ++ " disks for deployment")) ∧
    (cfg.prereq_cpu_cores ≤ node.cpu → cfg.prereq_min_disks ≤ node.disks →
      node.os ∉ cfg.prereq_os_release →
      prereq_vm cfg node = (false, "OS version is different than expected.")) ∧
    (cfg.prereq_cpu_cores ≤ node.cpu → cfg.prereq_min_disks ≤ node.disks →
      node.os ∈ cfg.prereq_os_release → node.kernel ∉ cfg.prereq_kernel →
      prereq_vm cfg node = (false, "Kernel Version is different than expected.")) := by
  unfold prereq_vm
  by_cases h1 : node.cpu < cfg.prereq_cpu_cores <;>
    by_cases h2 : node.disks < cfg.prereq_min_disks <;>
    by_cases h3 : node.os ∈ cfg.prereq_os_release <;>
    by_cases h4 : node.kernel ∈ cfg.prereq_kernel <;>
    simp [h1, h2, h3, h4] <;> omega

/-- Witness for C8: a node failing only the CPU check is rejected with the
CPU message, and a node passing all four checks is accepted. -/
theorem prereq_vm_spec_witness :
    prereq_vm (DeployCfg.mk [] [] [] "" "" 8 4 ["os1"] ["k1"] "" "")
        (NodeAttrs.mk "h" 4 9 "os1" "k1" []) =
      (false, "No of CPU are not as expected.") ∧
    (prereq_vm (DeployCfg.mk [] [] [] "" "" 8 4 ["os1"] ["k1"] "" "")
        (NodeAttrs.mk "h" 8 9 "os1" "k1" [])).1 = true := by
  constructor
  · exact (prereq_vm_spec (DeployCfg.mk [] [] [] "" "" 8 4 ["os1"] ["k1"] "" "")
      (NodeAttrs.mk "h" 4 9 "os1" "k1" [])).2.2.1 (by decide)
  · exact (prereq_vm_spec (DeployCfg.mk [] [] [] "" "" 8 4 ["os1"] ["k1"] "" "")
      (NodeAttrs.mk "h" 8 9 "os1" "k1" [])).1.mpr (by decide)

/-- C10: in `test_deployment`, the basic-IO and s3bench steps are nested in
the client-configuration branch: with `setup_client_config_flag` false,
neither runs, whatever the other flags are. -/
theorem client_config_gates_io (flags : DeployFlags)
    (h : flags.setup_client_config_flag = false) :
    DeployStep.basicIo ∉ test_deployment_steps flags ∧
      DeployStep.s3benchWorkload ∉ test_deployment_steps flags := by
  rcases flags with ⟨f1, f2, f3, f4, f5, f6⟩
  simp only at h
  subst h
  cases f1 <;> cases f2 <;> cases f4 <;> cases f5 <;> cases f6 <;> decide

/-- Witness for C10: with client configuration off and every other flag on,
neither IO step appears. -/
theorem client_config_gates_io_witness :
    DeployStep.basicIo ∉
      test_deployment_steps (DeployFlags.mk true true false true true true) ∧
    DeployStep.s3benchWorkload ∉
      test_deployment_steps (DeployFlags.mk true true false true true true) :=
  client_config_gates_io (DeployFlags.mk true true false true true true) rfl

/-- C6: `update_cvg_sol_file` writes `durability.sns` and `durability.dix`
as the exact `N+K+S` strings formatted from its integer inputs, so reloading
the manifest yields those strings. -/
theorem update_cvg_durability_roundtrip (conf : Manifest)
    (metadata_devices : List String) (data_devices : List (List String))
    (cvg_count : Nat) (cvg_type : String) (data_disk_per_cvg : Nat)
    (sns_data sns_parity sns_spare dix_data dix_parity dix_spare : Int)
    (size_metadata size_data_disk glusterfs_size : String) (m : Manifest)
    (h : update_cvg_sol_file conf metadata_devices data_devices cvg_count
      cvg_type data_disk_per_cvg sns_data sns_parity sns_spare dix_data
      dix_parity dix_spare size_metadata size_data_disk glusterfs_size =
      Except.ok m) :
    m.durability_sns = toString sns_data ++ "+" ++ toString sns_parity ++
      "+" ++ toString sns_spare ∧
    m.durability_dix = toString dix_data ++ "+" ++ toString dix_parity ++
      "+" ++ toString dix_spare := by
  unfold update_cvg_sol_file at h
  cases hmap : (List.range cvg_count).mapM
      (buildCvg metadata_devices data_devices size_metadata size_data_disk
        cvg_type data_disk_per_cvg) with
  | error e =>
    rw [hmap] at h
    cases h
  | ok storage =>
    rw [hmap] at h
    cases h
    constructor <;> rfl

/-- Witness for C6: inputs `1, 0, 0` for both domains yield the exact
durability strings `"1+0+0"`. -/
theorem update_cvg_durability_roundtrip_witness :
    ((update_cvg_sol_file (Manifest.mk [] "" "" "" "" "" [] [] []) ["d1"]
        [["d2", "d3"]] 1 "ios" 2 1 0 0 1 0 0 "20Gi" "20Gi" "20Gi").toOption.map
      (fun m => (m.durability_sns, m.durability_dix))) =
      some ("1+0+0", "1+0+0") := by
  cases hE : update_cvg_sol_file (Manifest.mk [] "" "" "" "" "" [] [] []) ["d1"]
      [["d2", "d3"]] 1 "ios" 2 1 0 0 1 0 0 "20Gi" "20Gi" "20Gi" with
  | error e =>
    have : (update_cvg_sol_file (Manifest.mk [] "" "" "" "" "" [] [] []) ["d1"]
        [["d2", "d3"]] 1 "ios" 2 1 0 0 1 0 0 "20Gi" "20Gi" "20Gi").isOk =
        true := by decide
    rw [hE] at this
    cases this
  | ok m =>
    obtain ⟨h1, h2⟩ := update_cvg_durability_roundtrip _ _ _ _ _ _ _ _ _ _ _ _
      _ _ _ _ hE
    simp [hE, Except.toOption, h1, h2]
    rfl

/-- The polling loop, when every poll fails, runs until the deadline: with
`end_time = t + 60 * k` it polls at `t, t+60, …` exactly `k` times and
returns the response observed at the last poll. -/
theorem pollLoop_all_fail (respAt : Nat → Bool × String)
    (hfail : ∀ t, (respAt t).1 = false) :
    ∀ (k t : Nat) (last : Bool × String), 1 ≤ k →
      pollLoop respAt (t + 60 * k) t last =
        (respAt (t + 60 * (k - 1)), List.range' t k 60) := by
  intro k
  induction k with
  | zero => intro t last h; omega
  | succ k ih =>
    intro t last hk
    rw [pollLoop]
    have hlt : t < t + 60 * (k + 1) := by omega
    rw [dif_pos hlt]
    simp only [hfail t, Bool.false_eq_true, if_false]
    match k with
    | 0 =>
      rw [pollLoop]
      have hstop : ¬(t + 60 < t + 60 * (0 + 1)) := by omega
      rw [dif_neg hstop]
      simp [List.range']
    | k' + 1 =>
      have harg : t + 60 * (k' + 1 + 1) = (t + 60) + 60 * (k' + 1) := by ring
      rw [harg, ih (t + 60) (respAt t) (by omega)]
      have harg2 : t + 60 + 60 * (k' + 1 - 1) = t + 60 * (k' + 1 + 1 - 1) := by
        omega
      rw [List.range'_succ]
      simp [harg2]
      refine ⟨by congr 1, ?_⟩
      simp [List.range'_succ, Nat.add_assoc]

/-- C4: the convergence poll queries every 60 seconds up to the 30-minute
deadline: if the first poll reports all services started it succeeds on that
single poll; if every poll fails it polls exactly at
`start, start+60, …, start+1740` (all before the deadline) and returns
failure carrying the last observed response, with no poll at or past the
deadline. -/
theorem convergence_polling_spec (respAt : Nat → Bool × String)
    (start_time : Nat) (last : Bool × String) :
    ((respAt start_time).1 = true →
      convergence_poll respAt start_time last =
        (respAt start_time, [start_time])) ∧
    ((∀ t, (respAt t).1 = false) →
      convergence_poll respAt start_time last =
        (respAt (start_time + 1740), List.range' start_time 30 60) ∧
      (respAt (start_time + 1740)).1 = false ∧
      ∀ t ∈ List.range' start_time 30 60, t < start_time + 1800) := by
  constructor
  · intro hok
    unfold convergence_poll
    rw [pollLoop]
    have hlt : start_time < start_time + 1800 := by omega
    rw [dif_pos hlt]
    simp [hok]
  · intro hfail
    refine ⟨?_, hfail _, ?_⟩
    · have h30 : start_time + 1800 = start_time + 60 * 30 := by ring
      unfold convergence_poll
      rw [h30, pollLoop_all_fail respAt hfail 30 start_time last (by omega)]
    · intro t ht
      rcases List.mem_range'.mp ht with ⟨i, hi, rfl⟩
      omega

/-- Witness for C4: with a response that never reports all services started,
the poll returns that failure after the 30 polls `0, 60, …, 1740`; with an
always-started response it succeeds on the single first poll. -/
theorem convergence_polling_spec_witness :
    convergence_poll (fun _ => (false, "Service motr not started.")) 0
        (true, "init") =
      ((false, "Service motr not started."), List.range' 0 30 60) ∧
    convergence_poll (fun _ => (true, "Cluster is up and running.")) 0
        (false, "init") =
      ((true, "Cluster is up and running."), [0]) := by
  constructor
  · exact ((convergence_polling_spec
      (fun _ => (false, "Service motr not started.")) 0 (true, "init")).2
        (fun t => rfl)).1
  · exact (convergence_polling_spec
      (fun _ => (true, "Cluster is up and running.")) 0 (false, "init")).1 rfl

theorem workerCleanupLoop_abort (exec : String → String → Except String String)
    (cmd2 cmd3 : String) (w : String) (ws2 : List String) (err : String) :
    ∀ (ws1 : List String),
      (∀ w' ∈ ws1, (∃ r, exec w' cmd2 = Except.ok r) ∧
        (∃ r, exec w' cmd3 = Except.ok r)) →
      exec w cmd2 = Except.error err →
      ∀ resp, workerCleanupLoop exec cmd2 cmd3 (ws1 ++ w :: ws2) resp =
        (Except.error err,
          (ws1.map (fun w' => [(w', cmd2), (w', cmd3)])).flatten ++ [(w, cmd2)]) := by
  intro ws1
  induction ws1 with
  | nil =>
    intro _ hw resp
    simp [workerCleanupLoop, hw]
  | cons w1 rest ih =>
    intro hok hw resp
    obtain ⟨⟨r2, h2⟩, ⟨r3, h3⟩⟩ := hok w1 (List.mem_cons_self _ _)
    have hok' : ∀ w' ∈ rest, (∃ r, exec w' cmd2 = Except.ok r) ∧
        (∃ r, exec w' cmd3 = Except.ok r) :=
      fun w' hm => hok w' (List.mem_cons_of_mem _ hm)
    simp only [List.cons_append, List.append_eq, workerCleanupLoop, h2, h3]
    rw [ih hok' hw r3]
    simp

/-- C7 (amended): in `destroy_setup` the control-plane teardown command is
always the first command issued, before any worker cleanup; but a failure of
one worker's cleanup command makes `destroy_setup` return that failure
immediately, issuing no command on the remaining workers (the single
`try/except` aborts the loop rather than continuing on error). -/
theorem destroy_setup_order_and_abort :
    (∀ (exec : String → String → Except String String) (cfg : DeployCfg)
        (master : String) (workers : List String),
      (destroy_setup exec cfg master workers).2.head? =
        some (master, destroy_cmd1 cfg)) ∧
    (∀ (exec : String → String → Except String String) (cfg : DeployCfg)
        (master : String) (ws1 : List String) (w : String) (ws2 : List String)
        (err r1 : String),
      exec master (destroy_cmd1 cfg) = Except.ok r1 →
      (∀ w' ∈ ws1, (∃ r, exec w' (destroy_cmd2 cfg) = Except.ok r) ∧
        (∃ r, exec w' destroy_cmd3 = Except.ok r)) →
      exec w (destroy_cmd2 cfg) = Except.error err →
      destroy_setup exec cfg master (ws1 ++ w :: ws2) =
        (Except.error err,
          (master, destroy_cmd1 cfg) ::
            ((ws1.map (fun w' =>
              [(w', destroy_cmd2 cfg), (w', destroy_cmd3)])).flatten ++
              [(w, destroy_cmd2 cfg)]))) := by
  constructor
  · intro exec cfg master workers
    unfold destroy_setup
    cases hm : exec master (destroy_cmd1 cfg) <;> simp
  · intro exec cfg master ws1 w ws2 err r1 hm hok hw
    unfold destroy_setup
    rw [hm]
    dsimp only
    rw [workerCleanupLoop_abort exec (destroy_cmd2 cfg) destroy_cmd3 w ws2
      err ws1 hok hw r1]

/-- A concrete deployment configuration for the counterexamples. -/
def cfgEx : DeployCfg :=
  DeployCfg.mk [("kafka", "kafka:v1"), ("zookeeper", "zk:v1")] ["cortxcontrol"]
    [("common", "pw")] "/mnt/fs-local-volume" "240" 8 4 ["os1"] ["k1"]
    "/root/cortx-k8s/k8_cortx_cloud/" "./destroy-cortx-cloud.sh"

/-- An executor on which worker `w1`'s unmount command raises and every other
command succeeds. -/
def execEx : String → String → Except String String := fun host cmd =>
  if host = "w1" ∧ cmd = destroy_cmd2 cfgEx then Except.error "umount failed"
  else Except.ok "done"

/-- Counterexample for C7: with workers `w1, w2` and `w1`'s unmount failing,
`destroy_setup` returns the failure and never issues any cleanup command on
`w2` — worker cleanup does not continue past the failure. -/
theorem destroy_setup_worker_abort_cex :
    (destroy_setup execEx cfgEx "m" ["w1", "w2"]).1 =
      Except.error "umount failed" ∧
    ("w2", destroy_cmd2 cfgEx) ∉ (destroy_setup execEx cfgEx "m" ["w1", "w2"]).2 ∧
    ("w2", destroy_cmd3) ∉ (destroy_setup execEx cfgEx "m" ["w1", "w2"]).2 := by
  decide

/-- Witness for C7: the amended theorem applied to the concrete failing
executor, with the master command first and `w2` never reached. -/
theorem destroy_setup_order_and_abort_witness :
    destroy_setup execEx cfgEx "m" ["w1", "w2"] =
      (Except.error "umount failed",
        [("m", destroy_cmd1 cfgEx), ("w1", destroy_cmd2 cfgEx)]) := by
  have h := destroy_setup_order_and_abort.2 execEx cfgEx "m" [] "w1" ["w2"]
    "umount failed" "done" (by decide) (by intro w' hw'; cases hw') (by decide)
  simpa using h

theorem dinsert_not_mem (k v : String) (l : List (String × String))
    (h : k ∉ dkeys l) : dinsert k v l = l ++ [(k, v)] := by
  induction l with
  | nil => rfl
  | cons kv rest ih =>
    obtain ⟨k₀, v₀⟩ := kv
    rw [dkeys_cons, List.mem_cons] at h
    push_neg at h
    have hne : ¬k₀ = k := fun hf => h.1 hf.symm
    simp [dinsert, hne, ih h.2]

theorem dkeys_append (a b : List (String × String)) :
    dkeys (a ++ b) = dkeys a ++ dkeys b :=
  List.map_append _ _ _

theorem dupdate_append :
    ∀ (b a : List (String × String)), (dkeys b).Nodup →
      (∀ k ∈ dkeys b, k ∉ dkeys a) → dupdate a b = a ++ b := by
  intro b
  induction b with
  | nil => intro a _ _; simp [dupdate_nil]
  | cons kv rest ih =>
    obtain ⟨k, v⟩ := kv
    intro a hn hdisj
    rw [dkeys_cons, List.nodup_cons] at hn
    rw [dupdate_cons, dinsert_not_mem k v a (hdisj k (by simp)),
      ih _ hn.2 ?_]
    · simp
    · intro k' hk'
      rw [dkeys_append]
      intro hmem
      rcases List.mem_append.mp hmem with hmem | hmem
      · exact hdisj k' (by rw [dkeys_cons]; exact List.mem_cons_of_mem _ hk') hmem
      · rcases List.mem_singleton.mp (by simpa using hmem) with rfl
        exact hn.1 hk'

theorem dupdate_nil_left (b : List (String × String))
    (hb : (dkeys b).Nodup) : dupdate [] b = b := by
  have h := dupdate_append b [] hb (by simp)
  simpa using h

theorem imageLoop_snd_nodup (dk : List String) :
    ∀ (tp img dflt : List (String × String)), (dkeys dflt).Nodup →
      (dkeys (imageLoop dk tp (img, dflt)).2).Nodup := by
  intro tp
  induction tp with
  | nil => intro img dflt h; exact h
  | cons kv rest ih =>
    obtain ⟨k, v⟩ := kv
    intro img dflt h
    by_cases hk : k ∈ dk
    · simp only [imageLoop, if_pos hk]
      exact ih _ _ (dkeys_dpop_nodup _ _ h)
    · simp only [imageLoop, if_neg hk]
      exact ih _ _ h

theorem imageLoop_not_mem (dk : List String) (k : String) :
    ∀ (tp img dflt : List (String × String)), k ∉ dkeys tp →
      dlookup k (imageLoop dk tp (img, dflt)).1 = dlookup k img ∧
      dlookup k (imageLoop dk tp (img, dflt)).2 = dlookup k dflt := by
  intro tp
  induction tp with
  | nil => intro img dflt _; exact ⟨rfl, rfl⟩
  | cons kv rest ih =>
    obtain ⟨k1, v1⟩ := kv
    intro img dflt h
    rw [dkeys_cons, List.mem_cons] at h
    push_neg at h
    by_cases hk : k1 ∈ dk
    · simp only [imageLoop, if_pos hk]
      refine ⟨?_, ?_⟩
      · rw [(ih _ _ h.2).1, dlookup_dinsert, if_neg (fun hf => h.1 hf.symm)]
      · rw [(ih _ _ h.2).2, dlookup_dpop_ne k k1 dflt h.1]
    · simp only [imageLoop, if_neg hk]
      exact ih _ _ h.2

theorem imageLoop_mem (dk : List String) (k v : String) :
    ∀ (tp img dflt : List (String × String)), (dkeys tp).Nodup →
      (dkeys dflt).Nodup → (k, v) ∈ tp → k ∈ dk →
      dlookup k (imageLoop dk tp (img, dflt)).1 = some v ∧
      dlookup k (imageLoop dk tp (img, dflt)).2 = none := by
  intro tp
  induction tp with
  | nil => intro img dflt _ _ hm; cases hm
  | cons kv rest ih =>
    obtain ⟨k1, v1⟩ := kv
    intro img dflt hntp hnd hm hk
    rw [dkeys_cons, List.nodup_cons] at hntp
    rcases List.mem_cons.mp hm with he | hm'
    · have hk1 : k = k1 := congrArg Prod.fst he
      have hv1 : v = v1 := congrArg Prod.snd he
      subst hk1
      subst hv1
      simp only [imageLoop, if_pos hk]
      obtain ⟨ha, hb⟩ := imageLoop_not_mem dk k rest (dinsert k v img)
        (dpop k dflt) hntp.1
      rw [ha, hb, dlookup_dinsert, if_pos rfl, dlookup_dpop_self k dflt hnd]
      exact ⟨rfl, rfl⟩
    · have hne : k1 ≠ k := fun hf => (hf ▸ hntp.1) (mem_dkeys_of_mem hm')
      by_cases hk1 : k1 ∈ dk
      · simp only [imageLoop, if_pos hk1]
        exact ih _ _ hntp.2 (dkeys_dpop_nodup _ _ hnd) hm' hk
      · simp only [imageLoop, if_neg hk1]
        exact ih _ _ hntp.2 hnd hm' hk

/-- C5 (amended): after `update_image_section_sol_file`, every injected
third-party key that is a known default third-party key appears in the final
images section with its injected value, and every default key not overridden
keeps its default value.  Injected keys outside the default key set are
dropped (see the counterexample), which is the correction to the claim. -/
theorem update_image_section_spec (cfg : DeployCfg) (conf : Manifest)
    (cortx_image : String) (tp : List (String × String))
    (hntp : (dkeys tp).Nodup) (hnd : (dkeys cfg.third_party_images).Nodup) :
    (∀ k v, (k, v) ∈ tp → k ∈ dkeys cfg.third_party_images →
      dlookup k (update_image_section_sol_file cfg conf cortx_image tp).images =
        some v) ∧
    (∀ k v, (k, v) ∈ cfg.third_party_images → k ∉ dkeys tp →
      dlookup k (update_image_section_sol_file cfg conf cortx_image tp).images =
        some v) := by
  have hcopy : dupdate [] cfg.third_party_images = cfg.third_party_images :=
    dupdate_nil_left _ hnd
  constructor
  · intro k v hm hk
    simp only [update_image_section_sol_file, hcopy]
    obtain ⟨h1, h2⟩ := imageLoop_mem (dkeys cfg.third_party_images) k v tp
      (dupdate conf.images (cfg.cortx_images_key.foldl
        (fun a key => dinsert key cortx_image a) []))
      cfg.third_party_images hntp hnd hm hk
    rw [dlookup_dupdate_not_mem _ _ _ ((dlookup_eq_none_iff _ _).mp h2), h1]
  · intro k v hm hk
    simp only [update_image_section_sol_file, hcopy]
    obtain ⟨h1, h2⟩ := imageLoop_not_mem (dkeys cfg.third_party_images) k tp
      (dupdate conf.images (cfg.cortx_images_key.foldl
        (fun a key => dinsert key cortx_image a) []))
      cfg.third_party_images hk
    exact dlookup_dupdate_mem k v _ _
      (imageLoop_snd_nodup _ tp _ _ hnd)
      (by rw [h2]; exact dlookup_mem k v _ hnd hm)

/-- Counterexample for C5: an injected mapping key that is not among the
default third-party image keys (`"foo"`) does not appear in the final images
section at all, so the final section does not contain every injected key. -/
theorem unknown_image_key_dropped_cex :
    dlookup "foo"
      (update_image_section_sol_file cfgEx
        (Manifest.mk [] "" "" "" "" "" [] [] []) "cortx-img:2"
        [("foo", "bar")]).images = none := by
  decide

/-- Witness for C5: with the defaults of `cfgEx`, an injected `kafka` image
wins and the untouched `zookeeper` default survives. -/
theorem update_image_section_spec_witness :
    dlookup "kafka"
      (update_image_section_sol_file cfgEx
        (Manifest.mk [] "" "" "" "" "" [] [] []) "cortx-img:2"
        [("kafka", "custom-kafka:9")]).images = some "custom-kafka:9" ∧
    dlookup "zookeeper"
      (update_image_section_sol_file cfgEx
        (Manifest.mk [] "" "" "" "" "" [] [] []) "cortx-img:2"
        [("kafka", "custom-kafka:9")]).images = some "zk:v1" := by
  constructor
  · exact (update_image_section_spec cfgEx
      (Manifest.mk [] "" "" "" "" "" [] [] []) "cortx-img:2"
      [("kafka", "custom-kafka:9")] (by decide) (by decide)).1
      "kafka" "custom-kafka:9" (by decide) (by decide)
  · exact (update_image_section_spec cfgEx
      (Manifest.mk [] "" "" "" "" "" [] [] []) "cortx-img:2"
      [("kafka", "custom-kafka:9")] (by decide) (by decide)).2
      "zookeeper" "zk:v1" (by decide) (by decide)

theorem processNode_ok_fields (g : Nat) (valid : Int) (skip : Bool) (n : Nat)
    (st : SolState) (node : NodeAttrs) (st' : SolState)
    (h : processNode g valid skip n st node = Except.ok st') :
    st'.data_disk_per_cvg = deriveDataDisk st.data_disk_per_cvg g node.devices ∧
    st'.metadata_devices = pySlice node.devices 1 (g + 1) := by
  simp only [processNode] at h
  split_ifs at h
  all_goals first
  | exact Except.noConfusion h
  | exact (by cases h; exact ⟨rfl, rfl⟩)

theorem processNode_check1 (g : Nat) (valid : Int) (n : Nat) (st : SolState)
    (node : NodeAttrs)
    (h2 : valid >
      ((deriveDataDisk st.data_disk_per_cvg g node.devices) * g * n : Int)) :
    processNode g valid false n st node =
      Except.error "The sum of data disks per cvg is less than N+K+S count" := by
  simp only [processNode]
  split_ifs with hA hB hC
  · rfl
  all_goals exact absurd ⟨by trivial, h2⟩ hA

theorem processNode_ne_msg1 (g : Nat) (valid : Int) (skip : Bool) (n : Nat)
    (st : SolState) (node : NodeAttrs)
    (hc : skip = true ∨ valid ≤
      ((deriveDataDisk st.data_disk_per_cvg g node.devices) * g * n : Int)) :
    processNode g valid skip n st node ≠
      Except.error "The sum of data disks per cvg is less than N+K+S count" := by
  simp only [processNode]
  split_ifs with hA hB hC
  · rcases hc with h | h
    · rw [h] at hA
      exact absurd hA.1 (by simp)
    · exact absurd hA.2 (not_lt.mpr h)
  · intro hcon
    exact absurd (Except.error.inj hcon) (by decide)
  · intro hcon
    exact Except.noConfusion hcon
  · intro hcon
    exact Except.noConfusion hcon

theorem processNode_insufficient (g : Nat) (valid : Int) (skip : Bool)
    (n : Nat) (st : SolState) (node : NodeAttrs)
    (hrem : ((node.devices.length : Int) - g - 1 <
      ((deriveDataDisk st.data_disk_per_cvg g node.devices) * g : Int))) :
    ∃ e, processNode g valid skip n st node = Except.error e := by
  simp only [processNode]
  split_ifs with hA hB hC
  all_goals first
  | exact ⟨_, rfl⟩
  | exact absurd hrem hB

theorem solYamlLoop_ne_msg1 (g : Nat) (valid : Int) (skip : Bool) (n : Nat)
    (d : Nat) (hd : 1 ≤ d)
    (hc : skip = true ∨ valid ≤ (d * g * n : Int)) :
    ∀ (ws : List NodeAttrs) (st : SolState), st.data_disk_per_cvg = d →
      solYamlLoop g valid skip n ws st ≠
        Except.error "The sum of data disks per cvg is less than N+K+S count" := by
  intro ws
  induction ws with
  | nil =>
    intro st hst hcon
    exact Except.noConfusion hcon
  | cons w rest ih =>
    intro st hst
    simp only [solYamlLoop]
    cases hP : processNode g valid skip n st w with
    | error e =>
      intro hcon
      have hne := processNode_ne_msg1 g valid skip n st w
        (by rw [hst, deriveDataDisk_pos d g w.devices hd]; exact hc)
      exact hne (hP.trans hcon)
    | ok st' =>
      have hd' : st'.data_disk_per_cvg = d := by
        rw [(processNode_ok_fields g valid skip n st w st' hP).1, hst,
          deriveDataDisk_pos d g w.devices hd]
      exact ih st' hd'

theorem solYamlLoop_bad_node (g : Nat) (valid : Int) (skip : Bool) (n : Nat)
    (d : Nat) (hd : 1 ≤ d) :
    ∀ (ws : List NodeAttrs) (st : SolState), st.data_disk_per_cvg = d →
      (∃ node ∈ ws, ((node.devices.length : Int) - g - 1 < (d * g : Int))) →
      ∃ e, solYamlLoop g valid skip n ws st = Except.error e := by
  intro ws
  induction ws with
  | nil =>
    rintro st hst ⟨node, hm, _⟩
    cases hm
  | cons w rest ih =>
    intro st hst hbad
    simp only [solYamlLoop]
    cases hP : processNode g valid skip n st w with
    | error e => exact ⟨e, rfl⟩
    | ok st' =>
      rcases hbad with ⟨node, hm, hnode⟩
      rcases List.mem_cons.mp hm with heq | hm'
      · subst heq
        rcases processNode_insufficient g valid skip n st node
          (by rw [hst, deriveDataDisk_pos d g node.devices hd]; exact hnode)
          with ⟨e, he⟩
        rw [hP] at he
        exact Except.noConfusion he
      · have hd' : st'.data_disk_per_cvg = d := by
          rw [(processNode_ok_fields g valid skip n st w st' hP).1, hst,
            deriveDataDisk_pos d g w.devices hd]
        exact ih st' hd' ⟨node, hm', hnode⟩

theorem solYamlLoop_metadata_last (g : Nat) (valid : Int) (skip : Bool)
    (n : Nat) :
    ∀ (ws : List NodeAttrs) (h : ws ≠ []) (st st' : SolState),
      solYamlLoop g valid skip n ws st = Except.ok st' →
      st'.metadata_devices = pySlice ((ws.getLast h).devices) 1 (g + 1) := by
  intro ws
  induction ws with
  | nil => intro h; exact absurd rfl h
  | cons w rest ih =>
    intro h st st' hL
    simp only [solYamlLoop] at hL
    cases hP : processNode g valid skip n st w with
    | error e =>
      rw [hP] at hL
      exact Except.noConfusion hL
    | ok st1 =>
      rw [hP] at hL
      cases rest with
      | nil =>
        have hL' : Except.ok st1 = Except.ok st' := hL
        cases hL'
        have hm := (processNode_ok_fields g valid skip n st w _ hP).2
        simpa using hm
      | cons w2 rest2 =>
        have hL' : solYamlLoop g valid skip n (w2 :: rest2) st1 =
          Except.ok st' := hL
        have hgl : (w :: w2 :: rest2).getLast h =
            (w2 :: rest2).getLast (by simp) := List.getLast_cons (by simp)
        rw [ih (by simp) st1 st' hL', hgl]

/-- A concrete worker node with four enumerated devices. -/
def nodeEx4 : NodeAttrs :=
  NodeAttrs.mk "h1" 8 9 "os1" "k1" ["d0", "d1", "d2", "d3"]

/-- A second concrete worker node with four enumerated devices. -/
def nodeEx4b : NodeAttrs :=
  NodeAttrs.mk "h2" 8 9 "os1" "k1" ["e0", "e1", "e2", "e3"]

/-- An empty concrete manifest for the counterexamples. -/
def manifestEx : Manifest := Manifest.mk [] "" "" "" "" "" [] [] []

/-- C1 (amended): for a node whose device list has `n = d*g + g + 1` devices
(so the `g` data slices of size `d` exactly exhaust the devices left after
the system disk and the `g` metadata devices; `d` derived as
`floor((n-g-1)/g)` when given as 0), and whose validation checks pass, the
per-node data-device split is exactly `g` contiguous slices of size `d`
whose concatenation is exactly the `g*d` devices after device 0 and devices
`1..g`.  The restriction to `d*g = n-g-1` (not mere divisibility) is the
correction: with `d*g < n-g-1` the loop appends `g+1` slices (see the
counterexample). -/
theorem update_sol_yaml_exact_split (g : Nat) (valid : Int) (skip : Bool)
    (n : Nat) (st : SolState) (node : NodeAttrs) (d : Nat) (hg : 1 ≤ g)
    (hd : 1 ≤ d)
    (hdd : d = deriveDataDisk st.data_disk_per_cvg g node.devices)
    (hlen : node.devices.length = d * g + g + 1)
    (hcheck : skip = true ∨ valid ≤ (d * g * n : Int)) :
    processNode g valid skip n st node =
      Except.ok (SolState.mk d (pySlice node.devices 1 (g + 1))
        (pyChunks d (node.devices.drop (g + 1)))
        (dinsert node.hostname (node.devices.headD "")
          st.sys_disk_pernode)) ∧
    (pyChunks d (node.devices.drop (g + 1))).length = g ∧
    (∀ l ∈ pyChunks d (node.devices.drop (g + 1)), l.length = d) ∧
    (pyChunks d (node.devices.drop (g + 1))).flatten =
      node.devices.drop (g + 1) ∧
    (node.devices.drop (g + 1)).length = g * d := by
  have hdrop : (node.devices.drop (g + 1)).length = g * d := by
    rw [List.length_drop, hlen]
    have harith : d * g + g + 1 - (g + 1) = d * g := by omega
    rw [harith, Nat.mul_comm]
  obtain ⟨hchl, hchm, hchj⟩ := pyChunks_spec d hd g _ hdrop
  have hA : ¬(skip = false ∧ valid > (d * g * n : Int)) := by
    rcases hcheck with h | h
    · rintro ⟨h1, _⟩
      rw [h] at h1
      cases h1
    · rintro ⟨_, h2⟩
      exact absurd h2 (not_lt.mpr h)
  have hrem : ((node.devices.length : Int) - g - 1) = ((d * g : Nat) : Int) := by
    rw [hlen]
    push_cast
    ring
  refine ⟨?_, hchl, hchm, hchj, hdrop⟩
  simp only [processNode, ← hdd]
  rw [if_neg (by push_cast at hA ⊢; exact hA), if_neg (by rw [hrem]; push_cast; omega),
    if_neg (by rw [hrem]; push_cast; omega)]

/-- Counterexample for C1: node devices `d0..d3`, `g = 1`, `d = 1`: `d`
divides `n - g - 1 = 2` evenly, yet the computed split is the two slices
`[["d2"], ["d3"]]` — not `g = 1` slice covering `g*d = 1` device, so the
claim fails whenever `d*g < n - g - 1`. -/
theorem update_sol_yaml_extra_slice_cex :
    (processNode 1 1 false 1 (SolState.mk 1 [] [] [])
      (NodeAttrs.mk "h1" 8 9 "os1" "k1" ["d0", "d1", "d2", "d3"])).toOption.map
        (fun st => st.data_devices) = some [["d2"], ["d3"]] ∧
    ([["d2"], ["d3"]] : List (List String)).length ≠ 1 ∧
    (1 : Nat) ∣ (4 - 1 - 1) := by
  decide

/-- Witness for C1: `g = 1`, `d = 2`, four devices: exactly one slice of two
devices, covering the two devices after the system and metadata disks. -/
theorem update_sol_yaml_exact_split_witness :
    processNode 1 1 false 1 (SolState.mk 2 [] [] []) nodeEx4 =
      Except.ok (SolState.mk 2 (pySlice nodeEx4.devices 1 2)
        (pyChunks 2 (nodeEx4.devices.drop 2))
        (dinsert nodeEx4.hostname (nodeEx4.devices.headD "") [])) ∧
    (pyChunks 2 (nodeEx4.devices.drop 2)).length = 1 := by
  have h := update_sol_yaml_exact_split 1 1 false 1 (SolState.mk 2 [] [] [])
    nodeEx4 2 (by decide) (by decide) (by decide) (by decide)
    (Or.inr (by decide))
  exact ⟨h.1, h.2.1⟩

/-- C2 (amended): `update_sol_yaml` rejects, before any manifest mutation,
any configuration whose primary (SNS) durability sum
`sns_data + sns_parity + sns_spare` strictly exceeds
`data_disk_per_cvg * cvg_count * node_count`, unless
`skip_disk_count_check` is set; a sum exactly equal to (or below) the
capacity passes this check, and with the skip flag the check never fires.
The DIX durability sum is not checked at all — that is the correction (see
the counterexample). -/
theorem sns_capacity_check_spec (cfg : DeployCfg) (workers : List NodeAttrs)
    (conf : Manifest) (cortx_image : String) (args : SolYamlArgs)
    (hd : 1 ≤ args.data_disk_per_cvg) :
    (args.skip_disk_count_check = false → workers ≠ [] →
      args.sns_spare + args.sns_data + args.sns_parity >
        (args.data_disk_per_cvg * args.cvg_count * workers.length : Int) →
      update_sol_yaml cfg workers conf cortx_image args =
        Except.error "The sum of data disks per cvg is less than N+K+S count") ∧
    (args.sns_spare + args.sns_data + args.sns_parity ≤
        (args.data_disk_per_cvg * args.cvg_count * workers.length : Int) →
      update_sol_yaml cfg workers conf cortx_image args ≠
        Except.error "The sum of data disks per cvg is less than N+K+S count") ∧
    (args.skip_disk_count_check = true →
      update_sol_yaml cfg workers conf cortx_image args ≠
        Except.error "The sum of data disks per cvg is less than N+K+S count") := by
  refine ⟨?_, ?_, ?_⟩
  · intro hskip hne hgt
    cases workers with
    | nil => exact absurd rfl hne
    | cons w rest =>
      simp only [update_sol_yaml, solYamlLoop, hskip]
      rw [processNode_check1 args.cvg_count _ _ _ w
        (by rw [deriveDataDisk_pos _ _ _ hd]; exact hgt)]
  · intro hle
    have hloop := solYamlLoop_ne_msg1 args.cvg_count
      (args.sns_spare + args.sns_data + args.sns_parity)
      args.skip_disk_count_check workers.length args.data_disk_per_cvg hd
      (Or.inr hle) workers
      (SolState.mk args.data_disk_per_cvg [] [] []) rfl
    simp only [update_sol_yaml]
    split
    next e heq =>
      intro hcon
      have he : e = "The sum of data disks per cvg is less than N+K+S count" :=
        Except.error.inj hcon
      exact hloop (heq.trans (by rw [he]))
    next st heq =>
      split
      next e2 heq2 =>
        intro hcon
        exact absurd (Except.error.inj hcon) (by decide)
      next conf3 heq2 =>
        intro hcon
        exact Except.noConfusion hcon
  · intro hskip
    have hloop := solYamlLoop_ne_msg1 args.cvg_count
      (args.sns_spare + args.sns_data + args.sns_parity)
      args.skip_disk_count_check workers.length args.data_disk_per_cvg hd
      (Or.inl hskip) workers
      (SolState.mk args.data_disk_per_cvg [] [] []) rfl
    simp only [update_sol_yaml]
    split
    next e heq =>
      intro hcon
      have he : e = "The sum of data disks per cvg is less than N+K+S count" :=
        Except.error.inj hcon
      exact hloop (heq.trans (by rw [he]))
    next st heq =>
      split
      next e2 heq2 =>
        intro hcon
        exact absurd (Except.error.inj hcon) (by decide)
      next conf3 heq2 =>
        intro hcon
        exact Except.noConfusion hcon

/-- Counterexample for C2: the DIX durability sum `5+0+0` strictly exceeds
`d*g*node_count = 2*1*1 = 2`, the skip flag is not set, yet the
configuration is accepted — only the SNS sum is checked. -/
theorem dix_capacity_unchecked_cex :
    ((5 : Int) + 0 + 0 > (2 * 1 * 1 : Int)) ∧
    (update_sol_yaml cfgEx [nodeEx4] manifestEx "img"
      (SolYamlArgs.mk 1 2 "ios" 1 0 0 5 0 0 "20Gi" "20Gi" "20Gi" false
        [("kafka", "kafka:v1")])).toOption.isSome = true := by
  decide

/-- Witness for C2: an SNS sum of `5` over the capacity `2` is rejected with
the N+K+S message; a sum equal to the capacity is not rejected by that
check. -/
theorem sns_capacity_check_spec_witness :
    update_sol_yaml cfgEx [nodeEx4] manifestEx "img"
      (SolYamlArgs.mk 1 2 "ios" 5 0 0 1 0 0 "20Gi" "20Gi" "20Gi" false
        [("kafka", "kafka:v1")]) =
      Except.error "The sum of data disks per cvg is less than N+K+S count" ∧
    update_sol_yaml cfgEx [nodeEx4] manifestEx "img"
      (SolYamlArgs.mk 1 2 "ios" 2 0 0 1 0 0 "20Gi" "20Gi" "20Gi" false
        [("kafka", "kafka:v1")]) ≠
      Except.error "The sum of data disks per cvg is less than N+K+S count" := by
  constructor
  · exact (sns_capacity_check_spec cfgEx [nodeEx4] manifestEx "img"
      (SolYamlArgs.mk 1 2 "ios" 5 0 0 1 0 0 "20Gi" "20Gi" "20Gi" false
        [("kafka", "kafka:v1")]) (by decide)).1 rfl (by simp) (by decide)
  · exact (sns_capacity_check_spec cfgEx [nodeEx4] manifestEx "img"
      (SolYamlArgs.mk 1 2 "ios" 2 0 0 1 0 0 "20Gi" "20Gi" "20Gi" false
        [("kafka", "kafka:v1")]) (by decide)).2.1 (by decide)

/-- C3 (amended): `update_sol_yaml` rejects, with no partitioning result
produced, whenever some node's remaining usable devices `n - g - 1` are
strictly fewer than the requested `d * g` data devices.  The claim's
inequality is reversed in the code: the rejection fires when the remainder
is below `d*g`, while `d*g` strictly below the remainder is accepted (see
the counterexample). -/
theorem insufficient_devices_rejected (cfg : DeployCfg)
    (workers : List NodeAttrs) (conf : Manifest) (cortx_image : String)
    (args : SolYamlArgs) (hd : 1 ≤ args.data_disk_per_cvg)
    (hbad : ∃ node ∈ workers,
      ((node.devices.length : Int) - args.cvg_count - 1 <
        (args.data_disk_per_cvg * args.cvg_count : Int))) :
    (update_sol_yaml cfg workers conf cortx_image args).toOption = none := by
  rcases solYamlLoop_bad_node args.cvg_count
    (args.sns_spare + args.sns_data + args.sns_parity)
    args.skip_disk_count_check workers.length args.data_disk_per_cvg hd
    workers (SolState.mk args.data_disk_per_cvg [] [] []) rfl hbad with ⟨e, he⟩
  simp only [update_sol_yaml]
  rw [he]
  rfl

/-- Counterexample for C3: with `d*g = 1` strictly below the remaining
`n - g - 1 = 2` usable devices (the under-use the claim says is rejected),
`update_sol_yaml` succeeds. -/
theorem underuse_accepted_cex :
    ((1 * 1 : Int) < (4 : Int) - 1 - 1) ∧
    (update_sol_yaml cfgEx [nodeEx4] manifestEx "img"
      (SolYamlArgs.mk 1 1 "ios" 1 0 0 1 0 0 "20Gi" "20Gi" "20Gi" false
        [("kafka", "kafka:v1")])).toOption.isSome = true := by
  decide

/-- Witness for C3: a node with two devices cannot satisfy `d*g = 5`
(remaining devices `0 < 5`), so the whole update fails. -/
theorem insufficient_devices_rejected_witness :
    (update_sol_yaml cfgEx [NodeAttrs.mk "h1" 8 9 "os1" "k1" ["d0", "d1"]]
      manifestEx "img"
      (SolYamlArgs.mk 1 5 "ios" 1 0 0 1 0 0 "20Gi" "20Gi" "20Gi" true
        [("kafka", "kafka:v1")])).toOption = none :=
  insufficient_devices_rejected cfgEx
    [NodeAttrs.mk "h1" 8 9 "os1" "k1" ["d0", "d1"]] manifestEx "img"
    (SolYamlArgs.mk 1 5 "ios" 1 0 0 1 0 0 "20Gi" "20Gi" "20Gi" true
      [("kafka", "kafka:v1")]) (by decide)
    ⟨NodeAttrs.mk "h1" 8 9 "os1" "k1" ["d0", "d1"], by decide, by decide⟩

/-- C9 (amended): over a multi-node worker list, `metadata_devices` is
overwritten on every loop iteration, and the single `update_cvg_sol_file`
call after the loop receives the final state, so the manifest's storage
section records one global volume-group assignment — its metadata devices
those of the last enumerated node — shared by all nodes.  `data_devices`,
however, does not always persist across iterations: the evenly-divisible
branch reassigns it wholesale (see the counterexample), which is the
correction to the claim. -/
theorem update_sol_yaml_single_global_assignment (cfg : DeployCfg)
    (workers : List NodeAttrs) (conf : Manifest) (cortx_image : String)
    (args : SolYamlArgs) (h : workers ≠ []) (st : SolState)
    (hL : solYamlLoop args.cvg_count
      (args.sns_spare + args.sns_data + args.sns_parity)
      args.skip_disk_count_check workers.length workers
      (SolState.mk args.data_disk_per_cvg [] [] []) = Except.ok st) :
    st.metadata_devices =
      pySlice ((workers.getLast h).devices) 1 (args.cvg_count + 1) ∧
    ∀ m sys, update_sol_yaml cfg workers conf cortx_image args =
      Except.ok (m, sys) →
      ∃ storage, (List.range args.cvg_count).mapM
          (buildCvg st.metadata_devices st.data_devices args.size_metadata
            args.size_data_disk args.cvg_type st.data_disk_per_cvg) =
          Except.ok storage ∧
        m.storage = storage ∧ sys = st.sys_disk_pernode := by
  refine ⟨solYamlLoop_metadata_last _ _ _ _ workers h _ st hL, ?_⟩
  intro m sys hU
  simp only [update_sol_yaml] at hU
  split at hU
  next e heq =>
    rw [hL] at heq
    exact Except.noConfusion heq
  next st1 heq =>
    rw [hL] at heq
    have hst : st = st1 := by injection heq
    subst hst
    split at hU
    next e2 heq2 => exact Except.noConfusion hU
    next conf3 heq2 =>
      have hpair : (update_nodes_sol_file conf3 (workers.map NodeAttrs.hostname),
          st.sys_disk_pernode) = (m, sys) := by injection hU
      unfold update_cvg_sol_file at heq2
      cases hmap : (List.range args.cvg_count).mapM
          (buildCvg st.metadata_devices st.data_devices args.size_metadata
            args.size_data_disk args.cvg_type st.data_disk_per_cvg) with
      | error e3 =>
        rw [hmap] at heq2
        exact Except.noConfusion heq2
      | ok storage =>
        rw [hmap] at heq2
        cases heq2
        refine ⟨storage, rfl, ?_, ?_⟩
        · have hm : update_nodes_sol_file _ (workers.map NodeAttrs.hostname) =
            m := congrArg Prod.fst hpair
          rw [← hm]
          rfl
        · have hs : st.sys_disk_pernode = sys := congrArg Prod.snd hpair
          exact hs.symm

/-- Counterexample for C9: two nodes, each in the evenly-divisible branch:
after the loop, `data_devices` holds only the second node's slices — the
first node's slices were overwritten, not accumulated. -/
theorem data_devices_overwritten_cex :
    (solYamlLoop 1 1 false 2 [nodeEx4, nodeEx4b]
      (SolState.mk 2 [] [] [])).toOption.map (fun st => st.data_devices) =
      some [["e2", "e3"]] ∧
    some [["e2", "e3"]] ≠ some [["d2", "d3"], ["e2", "e3"]] := by
  decide

/-- Witness for C9: on the two-node run, the final metadata devices are the
second (last) node's slice `["e1"]`. -/
theorem update_sol_yaml_single_global_assignment_witness :
    (SolState.mk 2 ["e1"] [["e2", "e3"]]
      [("h1", "d0"), ("h2", "e0")]).metadata_devices =
      pySlice (([nodeEx4, nodeEx4b].getLast (by simp)).devices) 1 2 := by
  exact (update_sol_yaml_single_global_assignment cfgEx [nodeEx4, nodeEx4b]
    manifestEx "img"
    (SolYamlArgs.mk 1 2 "ios" 1 0 0 1 0 0 "20Gi" "20Gi" "20Gi" false
      [("kafka", "kafka:v1")]) (by simp)
    (SolState.mk 2 ["e1"] [["e2", "e3"]] [("h1", "d0"), ("h2", "e0")])
    (by decide)).1

end CortxDeploy
